import Mathlib

/-!
Verification of the Psychopath Blender addon (psychoblend) against its
natural-language specification.  The Python modules under `psychoblend/`
(`psy_export.py`, `assembly.py`, `util.py`, `render.py`) are shallowly
embedded below: Python `str`/`bytes` values become `List Char`, machine
floats that only ever feed comparisons and exact arithmetic become `ℚ`,
exceptions become `Except`/`Option` results, and the stateful collection
passes become explicit state-passing functions.
-/

namespace Psychoblend

/-! ## Time sampler (`psy_export.py`, `PsychoExporter.__init__`)

The source computes `(2**int(log(segments, 2))) + 1` for positive segment
counts and `1` otherwise.  `int(log(S, 2))` truncates the double-precision
base-2 logarithm; for every `S` in the property's configured range 1..256
that truncation coincides with `⌊log₂ S⌋`, i.e. `Nat.log 2 S`. -/

def time_samples (motion_blur_segments : Nat) : Nat :=
  if 0 < motion_blur_segments then
    2 ^ (Nat.log 2 motion_blur_segments) + 1
  else
    1

/-! ## Frame stepping (`psy_export.py`, `PsychoExporter.set_frame`)

`set_frame` forwards `(frame, fraction)` to Blender's `scene.frame_set`
when the fractional offset is non-negative, and `(frame - 1, 1.0 + fraction)`
otherwise.  The model returns the pair passed to the host. -/

def set_frame (frame : Int) (fraction : ℚ) : Int × ℚ :=
  if 0 ≤ fraction then
    (frame, fraction)
  else
    (frame - 1, 1 + fraction)

/-! ## Export entry point (`psy_export.py`, `PsychoExporter.export_psy`)

The body `_export_psy` may return normally, raise `ExportCancelled`, or
raise any other exception.  `export_psy` wraps it in
`try/except ExportCancelled/else`: the `except` arm closes the file and
restores the frame then returns `False`; the `else` arm does the same and
returns `True`; an exception that is not `ExportCancelled` matches neither
arm and propagates with no cleanup.  The model records which cleanups ran
and whether a value was returned (`none` = exception propagated). -/

inductive ExportBodyOutcome
  | success
  | exportCancelled
  | otherException
deriving DecidableEq

structure ExportPsyResult where
  fileClosed : Bool
  frameRestored : Bool
  returned : Option Bool
deriving DecidableEq

def export_psy : ExportBodyOutcome → ExportPsyResult
  | .success => { fileClosed := true, frameRestored := true, returned := some true }
  | .exportCancelled => { fileClosed := true, frameRestored := true, returned := some false }
  | .otherException => { fileClosed := false, frameRestored := false, returned := none }

/-! ## Render entry point (`render.py`, `PsychopathRender.render`)

`render` sets `self._process = None`, runs `self._render(scene)` inside a
bare `try/except`, and on any exception terminates the subprocess if one
was started before re-raising.  `processStartedByBody` is whether
`_render` had assigned a live subprocess to `self._process` by the time it
raised (or returned); `bodyRaises` is whether `_render` raised.  The model
returns the process state at the moment `render` exits together with
whether the exception propagated out of `render`. -/

structure ProcState where
  started : Bool
  terminated : Bool
deriving DecidableEq

def render_run (processStartedByBody : Bool) (bodyRaises : Bool) : ProcState × Bool :=
  let st : ProcState := { started := processStartedByBody, terminated := false }
  if bodyRaises then
    if st.started then ({ st with terminated := true }, true)
    else (st, true)
  else
    (st, false)

/-! ## Name escaping (`util.py` / `psy_export.py`, `escape_name`)

Python strings are embedded as `List Char`.  `str.replace` with a
single-character pattern replaces every occurrence of that character
left-to-right without rescanning the replacement text; `replace1` is that
operation.  `escape_name` chains the seven replacements of the source in
source order (backslash first, then space, dollar, brackets, braces). -/

def replace1 (c : Char) (rep : List Char) : List Char → List Char
  | [] => []
  | x :: rest => if x = c then rep ++ replace1 c rep rest else x :: replace1 c rep rest

def escape_name (name : List Char) : List Char :=
  replace1 '\x7d' ['\\', '\x7d']
    (replace1 '\x7b' ['\\', '\x7b']
      (replace1 ']' ['\\', ']']
        (replace1 '[' ['\\', '[']
          (replace1 '$' ['\\', '$']
            (replace1 ' ' ['\\', ' ']
              (replace1 '\\' ['\\', '\\'] name))))))

/-- The characters that `escape_name` prefixes with a backslash (other than
the backslash itself, which is handled by the first replacement). -/
def isSpecial (c : Char) : Bool :=
  decide (c = ' ') || decide (c = '$') || decide (c = '[') || decide (c = ']') ||
    decide (c = '\x7b') || decide (c = '\x7d')

/-- Per-character action of the replacement chain. -/
def escChar (c : Char) : List Char :=
  if c = '\\' then ['\\', '\\']
  else if isSpecial c then ['\\', c]
  else [c]

/-- A string is well-escaped when every backslash starts an escape pair
`\c` with `c` a backslash or a special character, and every special
character occurs only as the second character of such a pair — i.e. the
output contains no unescaped backslash, dollar, bracket, brace or space. -/
def wellEscaped : List Char → Bool
  | [] => true
  | x :: rest =>
    if x = '\\' then
      match rest with
      | [] => false
      | d :: rest2 => (decide (d = '\\') || isSpecial d) && wellEscaped rest2
    else
      !(isSpecial x) && wellEscaped rest

/-- Wire-side unescaping, modelled from the spec's grammar: names are
escaped by backslash-prefixing the characters `\ $ [ ] \x7b \x7d` and the
literal space; anything else fails to parse. -/
def unescape : List Char → Option (List Char)
  | [] => some []
  | x :: rest =>
    if x = '\\' then
      match rest with
      | [] => none
      | d :: rest2 =>
        if decide (d = '\\') || isSpecial d then (unescape rest2).map (d :: ·) else none
    else
      if isSpecial x then none else (unescape rest).map (x :: ·)

/-! ## Scene-object model (`util.py`, `assembly.py`, `psy_export.py`)

Only the attributes the embedded functions read are modelled.  Matrices
are 4×4 rational matrices; material slots are the slot materials' names. -/

structure AnimData where
  hasAction : Bool
  nlaTracks : Nat
  drivers : Nat
deriving DecidableEq

inductive ModifierType
  | SUBSURF
  | MULTIRES
  | MIRROR (hasMirrorObject : Bool)
  | BEVEL
  | EDGE_SPLIT
  | SOLIDIFY
  | MASK
  | REMESH
  | TRIANGULATE
  | WIREFRAME
  | OTHER
deriving DecidableEq

structure MeshData where
  name : List Char
  polygons : Nat
  hasShapeKeys : Bool
  isSubdivisionSurface : Bool
deriving DecidableEq

inductive ObKind
  | MESH
  | LAMP_POINT
  | LAMP_AREA
  | OTHER_KIND
deriving DecidableEq

/-- Animation/constraint data of one link of an object's parent chain, as
read by `needs_xform_mb`. -/
structure XObj where
  hasAnimData : Bool
  numConstraints : Nat
deriving DecidableEq

abbrev Mat : Type := Fin 4 → Fin 4 → ℚ

/-- `mat[0][3] += off[0]; mat[1][3] += off[1]; mat[2][3] += off[2]` from
`Instance.take_sample` / `export_objects`. -/
def addOffset (m : Mat) (t : ℚ × ℚ × ℚ) : Mat := fun i j =>
  if i.val = 0 ∧ j.val = 3 then m i j + t.1
  else if i.val = 1 ∧ j.val = 3 then m i j + t.2.1
  else if i.val = 2 ∧ j.val = 3 then m i j + t.2.2
  else m i j

structure Ob where
  name : List Char
  kind : ObKind
  animationData : Option AnimData
  numConstraints : Nat
  modifiers : List ModifierType
  data : MeshData
  layers : List Bool
  hideRender : Bool
  materialSlots : List (List Char)
  matrixWorld : Mat
  ancestors : List XObj

/-- `util.py` `needs_def_mb`: the `no_anim_data` test on the object's
animation data. -/
def no_anim_data : Option AnimData → Bool
  | none => true
  | some a => !a.hasAction && decide (a.nlaTracks = 0) && decide (a.drivers = 0)

/-- Whether one modifier makes `util.py`'s `needs_def_mb` return `True`
(the `else: return True` arm of its allow-list). -/
def modifierForcesDefMb (no_anim : Bool) : ModifierType → Bool
  | .SUBSURF => false
  | .MULTIRES => false
  | .MIRROR hasOb => hasOb
  | .BEVEL => !no_anim
  | .EDGE_SPLIT => !no_anim
  | .SOLIDIFY => !no_anim
  | .MASK => !no_anim
  | .REMESH => !no_anim
  | .TRIANGULATE => !no_anim
  | .WIREFRAME => !no_anim
  | .OTHER => true

/-- `util.py` `needs_def_mb`. -/
def needs_def_mb (ob : Ob) : Bool :=
  ob.modifiers.any (modifierForcesDefMb (no_anim_data ob.animationData)) ||
    (decide (ob.kind = ObKind.MESH) && ob.data.hasShapeKeys)

/-- `psy_export.py`'s own (older) `needs_def_mb`: only `SUBSURF` and
`MIRROR` without a mirror object are allow-listed. -/
def needs_def_mb_psy (ob : Ob) : Bool :=
  ob.modifiers.any (fun m =>
    match m with
    | .SUBSURF => false
    | .MIRROR hasOb => hasOb
    | _ => true) ||
    (decide (ob.kind = ObKind.MESH) && ob.data.hasShapeKeys)

/-- `util.py` / `psy_export.py` `needs_xform_mb`, on the object followed by
its parent chain: animation data present, or constraints present, or
recursively on the parent. -/
def needs_xform_mb : List XObj → Bool
  | [] => false
  | o :: ps =>
    if o.hasAnimData then true
    else if 0 < o.numConstraints then true
    else needs_xform_mb ps

/-- The object-plus-ancestors chain `needs_xform_mb` walks for `ob`. -/
def xchain (ob : Ob) : List XObj :=
  { hasAnimData := ob.animationData.isSome, numConstraints := ob.numConstraints } :: ob.ancestors

/-- The per-object layer visibility test
(`vis_layer or (ob.layers[i] and visible_layers[i])` over all indices). -/
def visibleOnLayers (obLayers visLayers : List Bool) : Bool :=
  (obLayers.zip visLayers).any (fun p => p.1 && p.2)

/-! ## Instances (`assembly.py`, `Instance`) -/

structure CInstance where
  ob : Ob
  data_name : List Char
  needs_mb : Bool
  time_xforms : List Mat

/-- `Instance.__init__`. -/
def CInstance.init (ob : Ob) (data_name : List Char) : CInstance :=
  { ob := ob, data_name := data_name, needs_mb := needs_xform_mb (xchain ob), time_xforms := [] }

/-- `Instance.take_sample`: append a world transform (with the assembly's
translation offset applied) unless one is already stored and no transform
motion blur is needed. -/
def CInstance.take_sample (inst : CInstance) (translation_offset : ℚ × ℚ × ℚ) : CInstance :=
  if decide (inst.time_xforms.length = 0) || inst.needs_mb then
    { inst with
      time_xforms := inst.time_xforms ++ [addOffset inst.ob.matrixWorld translation_offset] }
  else
    inst

/-- Modelled from the spec: the sample-pass driver.  The revision of
`psy_export.py` that drives `Assembly.take_sample` is not among the
collected sources; per the spec's lifecycle section every entity is
populated by a sample pass that re-visits it once per schedule tick, so
the driver applies `take_sample` once per tick. -/
def CInstance.sampleN (inst : CInstance) (translation_offset : ℚ × ℚ × ℚ) : Nat → CInstance
  | 0 => inst
  | n + 1 => (inst.sampleN translation_offset n).take_sample translation_offset

/-! ## The scene-graph collector (`assembly.py`, `Assembly.__init__`)

The model covers scenes without group-instance empties (the recursive
`EMPTY`/`dupli_group` arm); every other dispatch arm of the constructor is
embedded.  The collector state mirrors the `Assembly` fields `objects`
(node list), `materials`, `instances` and the dedup sets `material_names`
and `mesh_names` (sets become lists queried by membership). -/

inductive ANode
  | meshNode (name : List Char) (isSubdiv : Bool)
  | sphereLampNode (name : List Char)
  | rectLampNode (name : List Char)
deriving DecidableEq

structure AsmState where
  nodes : List ANode
  materials : List (List Char)
  instances : List CInstance
  material_names : List (List Char)
  mesh_names : List (List Char)

def AsmState.init : AsmState :=
  { nodes := [], materials := [], instances := [], material_names := [], mesh_names := [] }

/-- The material-slot loop of `Assembly.get_mesh`: register each distinct
material name once (slot materials are modelled by their names). -/
def registerMaterials (st : AsmState) (slots : List (List Char)) : AsmState :=
  slots.foldl
    (fun st ms =>
      if st.material_names.contains ms then st
      else { st with material_names := st.material_names ++ [ms],
                     materials := st.materials ++ [ms] })
    st

/-- `Assembly.get_mesh`. -/
def get_mesh (st : AsmState) (ob : Ob) (groupPrefix : List Char) :
    Option (List Char) × AsmState :=
  let has_modifiers := decide (0 < ob.modifiers.length)
  let deform_mb := needs_def_mb ob
  let mesh_name :=
    if has_modifiers || deform_mb then
      groupPrefix ++ escape_name ("__".data ++ ob.name ++ "__".data ++ ob.data.name ++ "_".data)
    else
      groupPrefix ++ escape_name ("__".data ++ ob.data.name ++ "_".data)
  let has_faces := decide (0 < ob.data.polygons)
  let should_export_mesh := has_faces && !(st.mesh_names.contains mesh_name)
  if should_export_mesh then
    let st := { st with mesh_names := st.mesh_names ++ [mesh_name],
                        nodes := st.nodes ++ [ANode.meshNode mesh_name ob.data.isSubdivisionSurface] }
    (some mesh_name, registerMaterials st ob.materialSlots)
  else
    (none, st)

/-- `Assembly.get_sphere_lamp`. -/
def get_sphere_lamp (st : AsmState) (ob : Ob) (groupPrefix : List Char) :
    Option (List Char) × AsmState :=
  let name := groupPrefix ++ "__".data ++ escape_name ob.name
  (some name, { st with nodes := st.nodes ++ [ANode.sphereLampNode name] })

/-- `Assembly.get_rect_lamp`. -/
def get_rect_lamp (st : AsmState) (ob : Ob) (groupPrefix : List Char) :
    Option (List Char) × AsmState :=
  let name := groupPrefix ++ "__".data ++ escape_name ob.name
  (some name, { st with nodes := st.nodes ++ [ANode.rectLampNode name] })

/-- One iteration of the object loop of `Assembly.__init__`: visibility
check, dispatch on object kind, then store an `Instance` when a data name
was produced. -/
def collectStep (visible_layers : List Bool) (groupPrefix : List Char)
    (st : AsmState) (ob : Ob) : AsmState :=
  if ob.hideRender || !(visibleOnLayers ob.layers visible_layers) then st
  else
    let r :=
      match ob.kind with
      | .MESH => get_mesh st ob groupPrefix
      | .LAMP_POINT => get_sphere_lamp st ob groupPrefix
      | .LAMP_AREA => get_rect_lamp st ob groupPrefix
      | .OTHER_KIND => (none, st)
    match r.1 with
    | some nm => { r.2 with instances := r.2.instances ++ [CInstance.init ob nm] }
    | none => r.2

/-- `Assembly.__init__` over a list of scene objects. -/
def mkAssembly (objects : List Ob) (visible_layers : List Bool) (groupPrefix : List Char) :
    AsmState :=
  objects.foldl (collectStep visible_layers groupPrefix) AsmState.init

/-- `Assembly.take_sample` restricted to what mutates instances (materials
ignore samples and mesh sampling does not affect instance transforms). -/
def AsmState.take_sample (st : AsmState) (translation_offset : ℚ × ℚ × ℚ) : AsmState :=
  { st with instances := st.instances.map (fun i => i.take_sample translation_offset) }

/-- Modelled from the spec: the sample-pass driver applied once per
schedule tick (see `CInstance.sampleN`). -/
def AsmState.samplePassN (st : AsmState) (translation_offset : ℚ × ℚ × ℚ) : Nat → AsmState
  | 0 => st
  | n + 1 => (st.samplePassN translation_offset n).take_sample translation_offset

/-! ## Serialized block structure

One constructor per emitted `Keyword ... { ... }` block; an `Instance`
block records the `Data` reference it contains and how many `Transform`
fields it carries.  `Assembly.export` emits materials, then data nodes,
then instances. -/

inductive Block
  | meshSurface (name : List Char)
  | subdivisionSurface (name : List Char)
  | sphereLight (name : List Char)
  | rectangleLight (name : List Char)
  | surfaceShader (name : List Char)
  | instanceBlock (dataName : List Char) (numTransforms : Nat)
deriving DecidableEq

/-- `Mesh.export` / `SphereLamp.export` / `RectLamp.export` block headers. -/
def ANode.toBlock : ANode → Block
  | .meshNode nm subdiv => if subdiv then .subdivisionSurface nm else .meshSurface nm
  | .sphereLampNode nm => .sphereLight nm
  | .rectLampNode nm => .rectangleLight nm

/-- `Assembly.export`: materials, then objects, then instances. -/
def AsmState.exportBlocks (st : AsmState) : List Block :=
  st.materials.map Block.surfaceShader ++ st.nodes.map ANode.toBlock ++
    st.instances.map (fun i => Block.instanceBlock i.data_name i.time_xforms.length)

/-! ## The older exporter (`psy_export.py`, `export_objects` /
`export_mesh_object`)

This revision always returns the mesh name from `export_mesh_object` and
writes the `Instance` block inline, with one `Transform` per collected
time matrix (`time_samples` matrices with transform motion blur, one
without). -/

structure PsyExportState where
  mesh_names : List (List Char)
  blocks : List Block

/-- `PsychoExporter.export_mesh_object` (block emission and naming). -/
def export_mesh_object (st : PsyExportState) (ob : Ob) (groupPrefix : List Char) :
    List Char × PsyExportState :=
  let has_modifiers := decide (0 < ob.modifiers.length)
  let deform_mb := needs_def_mb_psy ob
  let mesh_name :=
    if has_modifiers || deform_mb then
      groupPrefix ++ escape_name ("__".data ++ ob.name ++ "__".data ++ ob.data.name ++ "_".data)
    else
      groupPrefix ++ escape_name ("__".data ++ ob.data.name ++ "_".data)
  let export_mesh := !(st.mesh_names.contains mesh_name) || has_modifiers || deform_mb
  if export_mesh then
    let blk :=
      if ob.data.isSubdivisionSurface then Block.subdivisionSurface mesh_name
      else Block.meshSurface mesh_name
    (mesh_name, { mesh_names := st.mesh_names ++ [mesh_name], blocks := st.blocks ++ [blk] })
  else
    (mesh_name, st)

/-- One iteration of the object loop of `PsychoExporter.export_objects`
(group-instance empties and NURBS surfaces excluded as in the collector
model above): dispatch, then an `Instance` block whose `Transform` count
is `time_samples` with transform motion blur and `1` without. -/
def export_objects_step (visible_layers : List Bool) (groupPrefix : List Char)
    (time_samples : Nat) (st : PsyExportState) (ob : Ob) : PsyExportState :=
  if ob.hideRender || !(visibleOnLayers ob.layers visible_layers) then st
  else
    let r : Option (List Char) × PsyExportState :=
      match ob.kind with
      | .MESH =>
        let r := export_mesh_object st ob groupPrefix
        (some r.1, r.2)
      | .LAMP_POINT =>
        let name := groupPrefix ++ "__".data ++ escape_name ob.name
        (some name, { st with blocks := st.blocks ++ [Block.sphereLight name] })
      | .LAMP_AREA =>
        let name := groupPrefix ++ "__".data ++ escape_name ob.name
        (some name, { st with blocks := st.blocks ++ [Block.rectangleLight name] })
      | .OTHER_KIND => (none, st)
    match r.1 with
    | some nm =>
      let numMats := if needs_xform_mb (xchain ob) then time_samples else 1
      { r.2 with blocks := r.2.blocks ++ [Block.instanceBlock nm numMats] }
    | none => r.2

/-- `PsychoExporter.export_objects` over a list of scene objects. -/
def export_objects (objects : List Ob) (visible_layers : List Bool)
    (groupPrefix : List Char) (time_samples : Nat) : PsyExportState :=
  objects.foldl (export_objects_step visible_layers groupPrefix time_samples)
    { mesh_names := [], blocks := [] }

/-- Number of `MeshSurface` blocks carrying a given data name. -/
def countMeshSurface (bs : List Block) (nm : List Char) : Nat :=
  (bs.filter (fun b =>
    match b with
    | .meshSurface n => decide (n = nm)
    | _ => false)).length

/-- The `Transform` counts of the `Instance` blocks whose `Data` field
references a given name, in emission order. -/
def instanceTransformCounts (bs : List Block) (nm : List Char) : List Nat :=
  bs.filterMap (fun b =>
    match b with
    | .instanceBlock d k => if d = nm then some k else none
    | _ => none)

/-! ## Concrete scenario for C2: one mesh data-block shared by two visible
objects, neither with modifiers, shape keys, animation data or
constraints. -/

def sharedMeshData : MeshData :=
  { name := "Mesh".data, polygons := 6, hasShapeKeys := false, isSubdivisionSurface := false }

def c2ObA : Ob :=
  { name := "Cube".data, kind := .MESH, animationData := none, numConstraints := 0,
    modifiers := [], data := sharedMeshData, layers := [true], hideRender := false,
    materialSlots := [], matrixWorld := fun _ _ => 0, ancestors := [] }

def c2ObB : Ob :=
  { c2ObA with name := "Cube2".data, matrixWorld := fun _ _ => 1 }

def c2SharedName : List Char := escape_name ("__".data ++ sharedMeshData.name ++ "_".data)

def c2NewBlocks : List Block :=
  ((mkAssembly [c2ObA, c2ObB] [true] []).samplePassN (0, 0, 0) (time_samples 2)).exportBlocks

def c2OldBlocks : List Block :=
  (export_objects [c2ObA, c2ObB] [true] [] (time_samples 2)).blocks

/-- A concrete unanimated, unconstrained object with one unanimated,
unconstrained ancestor, for the C6 witness. -/
def c6Ob : Ob :=
  { name := "Lamp".data, kind := .LAMP_POINT, animationData := none, numConstraints := 0,
    modifiers := [],
    data := { name := "D".data, polygons := 0, hasShapeKeys := false,
              isSubdivisionSurface := false },
    layers := [true], hideRender := false, materialSlots := [],
    matrixWorld := fun _ _ => 0,
    ancestors := [{ hasAnimData := false, numConstraints := 0 }] }

/-! ## Stream framing (`render.py`, `PsychopathRender._render` read loop)

The byte stream is embedded as `List Char`.  `splitDiv` is
`output.split(b'DIV\n')` (leftmost, non-overlapping); `stepBuckets` is the
`for bucket in outputs` loop, which skips empty chunks, collects chunks
ending in `BUCKET_END\n` for decoding, and appends every other chunk to
the fresh accumulation buffer. -/

def splitDiv : List Char → List (List Char)
  | 'D' :: 'I' :: 'V' :: '\n' :: rest => [] :: splitDiv rest
  | c :: rest =>
    match splitDiv rest with
    | r :: rs => (c :: r) :: rs
    | [] => [[c]]
  | [] => [[]]

def bucketEndMark : List Char := "BUCKET_END\n".data

/-- `bucket[-11:] == b'BUCKET_END\n'`. -/
def endsWithBucketEnd (c : List Char) : Bool := bucketEndMark.isSuffixOf c

def stepBuckets : List (List Char) → List (List Char) → List Char →
    List (List Char) × List Char
  | [], decoded, out => (decoded, out)
  | c :: rest, decoded, out =>
    if c.length = 0 then stepBuckets rest decoded out
    else if endsWithBucketEnd c then stepBuckets rest (decoded ++ [c]) out
    else stepBuckets rest decoded (out ++ c)

/-- A concrete accumulated buffer: one complete bucket chunk followed by a
trailing incomplete chunk. -/
def c3Buf : List Char := "xxBUCKET_END\nDIV\npartial".data

/-! ## Progress parsing (`render.py`, the `try/except ValueError/finally`
around `float(percentage[:-1])`)

A bucket message is reduced to an identifier (standing for its rectangle
and pixel payload) and the parse result of its percentage field (`none`
models `ValueError`).  The loop-local variable `progress` starts unbound
(`none`); `finally` always calls `update_progress(progress/100)`, which
raises `UnboundLocalError` when `progress` has never been assigned. -/

structure BucketMsg where
  id : Nat
  percentParse : Option ℚ
deriving DecidableEq

structure DecodeState where
  progress : Option ℚ
  drawn : List Nat
deriving DecidableEq

inductive PyErr
  | unboundLocalError
deriving DecidableEq

/-- Processing one complete bucket message: `_draw_bucket` runs first, then
the progress update. -/
def processBucket (st : DecodeState) (m : BucketMsg) : Except PyErr DecodeState :=
  let st := { st with drawn := st.drawn ++ [m.id] }
  match m.percentParse with
  | some p => Except.ok { st with progress := some p }
  | none =>
    match st.progress with
    | some _ => Except.ok st
    | none => Except.error PyErr.unboundLocalError

/-- The decode loop over the complete bucket messages of the stream; an
uncaught exception aborts the loop. -/
def decodeBuckets (st : DecodeState) : List BucketMsg → Except PyErr DecodeState
  | [] => Except.ok st
  | m :: rest =>
    match processBucket st m with
    | Except.ok st2 => decodeBuckets st2 rest
    | Except.error e => Except.error e

def c4StreamFirstMalformed : List BucketMsg := [⟨1, none⟩, ⟨2, some 50⟩]

def c4StreamLaterMalformed : List BucketMsg := [⟨1, some 10⟩, ⟨2, none⟩, ⟨3, some 90⟩]

/-! ## Bucket row flip (`render.py`, `PsychopathRender._draw_bucket`)

`pixels_flipped += pixels[n*width:(n+1)*width]` for `n = height-i-1` as
`i` ranges over `range(height)`. -/

abbrev Pixel : Type := ℚ × ℚ × ℚ × ℚ

/-- The slice `pixels[n*w:(n+1)*w]`: row `n` of a row-major rectangle. -/
def rowOf (w n : Nat) (p : List α) : List α := (p.drop (n * w)).take w

/-- The row-flip loop of `_draw_bucket`. -/
def flipRows (w h : Nat) (p : List α) : List α :=
  (List.range h).flatMap (fun i => rowOf w (h - i - 1) p)

def c9Pixels : List Pixel :=
  [(0, 0, 0, 1), (1, 0, 0, 1), (0, 1, 0, 1), (1, 1, 0, 1)]

end Psychoblend

namespace Psychoblend

private theorem replace1_append (c : Char) (rep a b : List Char) :
    replace1 c rep (a ++ b) = replace1 c rep a ++ replace1 c rep b := by
  induction a with
  | nil => simp [replace1]
  | cons x xs ih =>
    by_cases h : x = c <;> simp [replace1, h, ih]

private theorem escape_name_append (a b : List Char) :
    escape_name (a ++ b) = escape_name a ++ escape_name b := by
  simp [escape_name, replace1_append]

private theorem escape_name_singleton (x : Char) : escape_name [x] = escChar x := by
  by_cases h1 : x = '\\'
  · subst h1; rfl
  by_cases h2 : x = ' '
  · subst h2; rfl
  by_cases h3 : x = '$'
  · subst h3; rfl
  by_cases h4 : x = '['
  · subst h4; rfl
  by_cases h5 : x = ']'
  · subst h5; rfl
  by_cases h6 : x = '\x7b'
  · subst h6; rfl
  by_cases h7 : x = '\x7d'
  · subst h7; rfl
  simp [escape_name, replace1, escChar, isSpecial, h1, h2, h3, h4, h5, h6, h7]

private theorem escape_name_cons (x : Char) (l : List Char) :
    escape_name (x :: l) = escChar x ++ escape_name l := by
  have h : x :: l = [x] ++ l := rfl
  rw [h, escape_name_append, escape_name_singleton]

private theorem wellEscaped_escChar_append (c : Char) (t : List Char) :
    wellEscaped (escChar c ++ t) = wellEscaped t := by
  by_cases h1 : c = '\\'
  · subst h1; simp [escChar, wellEscaped, isSpecial]
  by_cases hs : isSpecial c = true
  · simp only [escChar, h1, if_false, hs, if_true, List.cons_append, List.nil_append]
    simp [wellEscaped, hs]
  · have hs' : isSpecial c = false := by revert hs; cases isSpecial c <;> simp
    simp only [escChar, h1, if_false, hs, List.cons_append, List.nil_append]
    rw [wellEscaped.eq_def]
    simp [h1, hs']

private theorem unescape_escChar_append (c : Char) (t : List Char) :
    unescape (escChar c ++ t) = (unescape t).map (c :: ·) := by
  by_cases h1 : c = '\\'
  · subst h1; simp [escChar, unescape, isSpecial]
  by_cases hs : isSpecial c = true
  · simp only [escChar, h1, if_false, hs, if_true, List.cons_append, List.nil_append]
    simp [unescape, hs]
  · have hs' : isSpecial c = false := by revert hs; cases isSpecial c <;> simp
    simp only [escChar, h1, if_false, hs, List.cons_append, List.nil_append]
    rw [unescape.eq_def]
    simp [h1, hs']

private theorem wellEscaped_escape_name (l : List Char) :
    wellEscaped (escape_name l) = true := by
  induction l with
  | nil => rfl
  | cons x xs ih => rw [escape_name_cons, wellEscaped_escChar_append, ih]

private theorem unescape_escape_name (l : List Char) :
    unescape (escape_name l) = some l := by
  induction l with
  | nil => rfl
  | cons x xs ih => rw [escape_name_cons, unescape_escChar_append, ih]; rfl

end Psychoblend

namespace Psychoblend

private theorem log2_5 : Nat.log 2 5 = 2 :=
  Nat.log_eq_of_pow_le_of_lt_pow (by norm_num) (by norm_num)

private theorem log2_200 : Nat.log 2 200 = 7 :=
  Nat.log_eq_of_pow_le_of_lt_pow (by norm_num) (by norm_num)

/-- C1: for every configured motion-blur segment count `S` with `0 ≤ S ≤ 256`,
the exporter's number of time samples is `2 ^ ⌊log₂ S⌋ + 1` when `S > 0`
(`2 ^ Nat.log 2 S` really is the power-of-two floor: it is bounded by `S`
and doubling it exceeds `S`), and `1` when `S = 0`; in particular
`S = 0 → 1`, `S = 5 → 5`, `S = 200 → 129`. -/
theorem c1_time_samples_spec (S : Nat) (hS : S ≤ 256) :
    (S = 0 → time_samples S = 1) ∧
    (0 < S → time_samples S = 2 ^ (Nat.log 2 S) + 1 ∧
      2 ^ (Nat.log 2 S) ≤ S ∧ S < 2 ^ (Nat.log 2 S + 1)) ∧
    time_samples 0 = 1 ∧ time_samples 5 = 5 ∧ time_samples 200 = 129 := by
  refine ⟨?_, ?_, by simp [time_samples], by simp [time_samples, log2_5],
    by simp [time_samples, log2_200]⟩
  · intro h; simp [time_samples, h]
  · intro h
    refine ⟨by simp [time_samples, h], Nat.pow_log_le_self 2 h.ne', ?_⟩
    exact Nat.lt_pow_succ_log_self (by norm_num) S

/-- Witness for C1 at the concrete input `S = 200`. -/
theorem c1_time_samples_spec_witness :
    (200 ≤ 256) ∧
    (time_samples 200 = 2 ^ (Nat.log 2 200) + 1 ∧
      2 ^ (Nat.log 2 200) ≤ 200 ∧ 200 < 2 ^ (Nat.log 2 200 + 1)) :=
  ⟨by norm_num, (c1_time_samples_spec 200 (by norm_num)).2.1 (by norm_num)⟩

/-- C8: for every anchor frame `f` and fractional shutter offset `t`, the
time sampler's frame stepping evaluates the host at `(f, t)` when `t ≥ 0`,
and when `t < 0` it steps to the previous integer frame with the
complementary fractional part, evaluating at `(f - 1, 1 + t)`. -/
theorem c8_set_frame_spec (f : Int) (t : ℚ) :
    (0 ≤ t → set_frame f t = (f, t)) ∧
    (t < 0 → set_frame f t = (f - 1, 1 + t)) := by
  constructor
  · intro h; simp [set_frame, h]
  · intro h; simp [set_frame, not_le.mpr h]

/-- Witness for C8 at the concrete inputs `(10, 1/2)` and `(10, -1/4)`. -/
theorem c8_set_frame_spec_witness :
    set_frame 10 (1/2) = (10, 1/2) ∧ set_frame 10 (-1/4) = (9, 3/4) := by
  constructor
  · exact (c8_set_frame_spec 10 (1/2)).1 (by norm_num)
  · have h := (c8_set_frame_spec 10 (-1/4)).2 (by norm_num)
    rw [h]; norm_num

/-- C5 counterexample: when `_export_psy` raises an exception other than
`ExportCancelled`, `export_psy` neither closes the scene file nor restores
the scene's current frame — the `try/except ExportCancelled/else` structure
has no arm for that exit path, refuting the claim that cleanup runs on
every failure. -/
theorem c5_counterexample :
    ¬ ((export_psy .otherException).fileClosed = true ∧
       (export_psy .otherException).frameRestored = true) := by
  decide

/-- C5 (amended): `export_psy` closes the scene file and restores the
scene's current frame on successful export (returning `True`) and on
cancellation (returning `False`); an exception other than `ExportCancelled`
propagates out of `export_psy` without closing the file or restoring the
frame. -/
theorem c5_cleanup_on_success_and_cancel :
    (export_psy .success).fileClosed = true ∧
    (export_psy .success).frameRestored = true ∧
    (export_psy .success).returned = some true ∧
    (export_psy .exportCancelled).fileClosed = true ∧
    (export_psy .exportCancelled).frameRestored = true ∧
    (export_psy .exportCancelled).returned = some false ∧
    (export_psy .otherException).fileClosed = false ∧
    (export_psy .otherException).frameRestored = false ∧
    (export_psy .otherException).returned = none := by
  decide

/-- C10: for every run of `render()` in which the renderer subprocess has
been started, if an exception escapes the internal export/decode logic the
subprocess is terminated in the `except` arm before the exception
propagates out of `render()`; the subprocess is never left running when
`render()` exits exceptionally. -/
theorem c10_render_terminates_on_exception
    (started raises : Bool) (hr : raises = true) (hs : started = true) :
    (render_run started raises).1.terminated = true ∧
    (render_run started raises).2 = true := by
  subst hr; subst hs; decide

/-- Witness for C10 at the concrete input where the subprocess was started
and the body raised. -/
theorem c10_render_terminates_on_exception_witness :
    (render_run true true).1.terminated = true ∧
    (render_run true true).2 = true :=
  c10_render_terminates_on_exception true true rfl rfl

/-- C7: `escape_name` is injective (it is inverted on the wire by
`unescape`), its output never contains an unescaped backslash, dollar,
square bracket, curly brace or literal space (every special character in
the output is the second character of a backslash escape pair, which is
what `wellEscaped` checks), and `escape_name "a b$c"` is `"a\ b\$c"`. -/
theorem c7_escape_name_spec :
    (∀ name : List Char, wellEscaped (escape_name name) = true) ∧
    (∀ a b : List Char, escape_name a = escape_name b → a = b) ∧
    escape_name ("a b$c".data) = "a\\ b\\$c".data := by
  refine ⟨wellEscaped_escape_name, ?_, by decide⟩
  intro a b h
  have ha := unescape_escape_name a
  have hb := unescape_escape_name b
  rw [h, hb] at ha
  exact (Option.some.inj ha).symm

/-- Witness for C7: the injectivity component applied at the concrete name
`"a b$c"`, its equation discharged by evaluation, together with the
well-escapedness of that name's concrete image. -/
theorem c7_escape_name_spec_witness :
    wellEscaped (escape_name ("a b$c".data)) = true ∧
    ("a b$c".data : List Char) = "a b$c".data :=
  ⟨c7_escape_name_spec.1 _, c7_escape_name_spec.2.1 _ _ rfl⟩

/-! ### Row-flip lemmas (C9) -/

private theorem length_rowOf {α : Type} (w h n : Nat) (p : List α)
    (hp : p.length = w * h) (hn : n < h) : (rowOf w n p).length = w := by
  have h1 : n * w + w ≤ h * w := by
    have := Nat.mul_le_mul_right w (Nat.succ_le_of_lt hn)
    simpa [Nat.succ_mul] using this
  have h2 : w * h = h * w := Nat.mul_comm w h
  simp only [rowOf, List.length_take, List.length_drop, hp]
  omega

private theorem rowOf_succ {α : Type} (w n : Nat) (p : List α) :
    rowOf w (n + 1) p = rowOf w n (p.drop w) := by
  simp only [rowOf, List.drop_drop]
  congr 2
  ring

private theorem flatten_rows {α : Type} (w : Nat) :
    ∀ (h : Nat) (p : List α), p.length = w * h →
      (List.range h).flatMap (fun n => rowOf w n p) = p := by
  intro h
  induction h with
  | zero =>
    intro p hp
    simp only [Nat.mul_zero] at hp
    simp [List.length_eq_zero.mp hp]
  | succ h ih =>
    intro p hp
    rw [List.range_succ_eq_map, List.flatMap_cons, List.flatMap_map]
    have hdrop : (p.drop w).length = w * h := by
      simp only [List.length_drop, hp, Nat.mul_succ]
      omega
    simp only [Function.comp, Nat.succ_eq_add_one, rowOf_succ]
    rw [ih (p.drop w) hdrop]
    simp [rowOf, List.take_append_drop]

private theorem rowOf_flatten_range {α : Type} (w : Nat) :
    ∀ (h : Nat) (f : Nat → List α), (∀ i, i < h → (f i).length = w) →
      ∀ n, n < h → rowOf w n (((List.range h).map f).flatten) = f n := by
  intro h
  induction h with
  | zero => intro f _ n hn; exact absurd hn (Nat.not_lt_zero n)
  | succ h ih =>
    intro f hf n hn
    rw [List.range_succ_eq_map, List.map_cons, List.map_map, List.flatten_cons]
    cases n with
    | zero =>
      have h0 : (f 0).length = w := hf 0 (Nat.succ_pos h)
      simp only [rowOf, Nat.zero_mul, List.drop_zero]
      rw [← h0, List.take_left]
    | succ n =>
      have hstep : (n + 1) * w = (f 0).length + n * w := by
        rw [hf 0 (Nat.succ_pos h)]; ring
      have hrec := ih (f ∘ Nat.succ) (fun i hi => hf (i + 1) (Nat.succ_lt_succ hi)) n
        (Nat.lt_of_succ_lt_succ hn)
      simp only [rowOf] at hrec ⊢
      rw [hstep, List.drop_append]
      exact hrec

private theorem sum_map_const_nat {α : Type} (l : List α) (w : Nat) :
    (l.map (fun _ => w)).sum = l.length * w := by
  induction l with
  | nil => simp
  | cons x xs ih =>
    simp only [List.map_cons, List.sum_cons, List.length_cons, ih, Nat.succ_mul]
    omega

private theorem length_flipRows {α : Type} (w h : Nat) (p : List α)
    (hp : p.length = w * h) : (flipRows w h p).length = w * h := by
  have hlf := List.length_flatMap (List.range h) (fun i => rowOf w (h - i - 1) p)
  rw [flipRows, hlf]
  simp only [Function.comp_def]
  have hcong : ∀ i ∈ List.range h, (rowOf w (h - i - 1) p).length = (fun _ : Nat => w) i := by
    intro i hi
    have hi' : i < h := List.mem_range.mp hi
    exact length_rowOf w h (h - i - 1) p hp (by omega)
  rw [List.map_congr_left hcong, sum_map_const_nat, List.length_range, Nat.mul_comm]

private theorem rowOf_flipRows {α : Type} (w h n : Nat) (p : List α)
    (hp : p.length = w * h) (hn : n < h) :
    rowOf w n (flipRows w h p) = rowOf w (h - 1 - n) p := by
  rw [flipRows, List.flatMap_def]
  have hlen : ∀ i, i < h → (rowOf w (h - i - 1) p).length = w := fun i hi =>
    length_rowOf w h (h - i - 1) p hp (by omega)
  rw [rowOf_flatten_range w h _ hlen n hn]
  have : h - n - 1 = h - 1 - n := by omega
  rw [this]

private theorem flipRows_invol {α : Type} (w h : Nat) (p : List α)
    (hp : p.length = w * h) : flipRows w h (flipRows w h p) = p := by
  have hlen := length_flipRows w h p hp
  conv_lhs => rw [flipRows]
  have hcong : ∀ i ∈ List.range h,
      rowOf w (h - i - 1) (flipRows w h p) = rowOf w i p := by
    intro i hi
    have hi' : i < h := List.mem_range.mp hi
    rw [rowOf_flipRows w h (h - i - 1) p hp (by omega)]
    have : h - 1 - (h - i - 1) = i := by omega
    rw [this]
  rw [List.flatMap_def, List.map_congr_left hcong, ← List.flatMap_def]
  exact flatten_rows w h p hp

/-- C9: for every bucket of width `w` and height `h` whose decoded payload
holds exactly `w*h` pixel quadruples, the decoder places source row
`h-1-n` at destination row `n` for every `n < h`, and the row flip is an
involution: flipping the flipped payload reproduces the original row
order. -/
theorem c9_bucket_row_flip (w h : Nat) (p : List Pixel) (hp : p.length = w * h) :
    (∀ n, n < h → rowOf w n (flipRows w h p) = rowOf w (h - 1 - n) p) ∧
    flipRows w h (flipRows w h p) = p :=
  ⟨fun n hn => rowOf_flipRows w h n p hp hn, flipRows_invol w h p hp⟩

/-- Witness for C9 at a concrete `2×2` bucket payload. -/
theorem c9_bucket_row_flip_witness :
    flipRows 2 2 (flipRows 2 2 c9Pixels) = c9Pixels ∧
    rowOf 2 0 (flipRows 2 2 c9Pixels) = rowOf 2 1 c9Pixels := by
  have h := c9_bucket_row_flip 2 2 c9Pixels (by rfl)
  refine ⟨h.2, ?_⟩
  have h0 := h.1 0 (by norm_num)
  simpa using h0

/-! ### Stream-framing lemmas (C3) -/

private theorem stepBuckets_spec :
    ∀ (chunks : List (List Char)) (d : List (List Char)) (o : List Char),
      stepBuckets chunks d o =
        (d ++ chunks.filter endsWithBucketEnd,
         o ++ (chunks.filter (fun c => !endsWithBucketEnd c)).flatten) := by
  intro chunks
  induction chunks with
  | nil => intro d o; simp [stepBuckets]
  | cons c rest ih =>
    intro d o
    by_cases h0 : c.length = 0
    · have hc : c = [] := List.length_eq_zero.mp h0
      subst hc
      have he : endsWithBucketEnd [] = false := by decide
      simp [stepBuckets, ih, he]
    · by_cases h1 : endsWithBucketEnd c = true
      · simp [stepBuckets, h0, h1, ih]
      · have h1' : endsWithBucketEnd c = false := by
          revert h1; cases endsWithBucketEnd c <;> simp
        simp [stepBuckets, h0, h1', ih]

/-- C3: in every iteration of the bucket-decode read loop, a chunk produced
by splitting the accumulated buffer on `DIV\n` that does not end with
`BUCKET_END\n` is never among the decoded buckets; the fresh accumulation
buffer is exactly the byte-for-byte concatenation, in order, of all such
chunks — in particular the first of them starts the accumulation buffer
for the next read. -/
theorem c3_incomplete_chunk_retained (buf : List Char) :
    (∀ c ∈ splitDiv buf, endsWithBucketEnd c = false →
      c ∉ (stepBuckets (splitDiv buf) [] []).1) ∧
    (stepBuckets (splitDiv buf) [] []).2 =
      ((splitDiv buf).filter (fun c => !endsWithBucketEnd c)).flatten ∧
    (∀ c cs, (splitDiv buf).filter (fun c => !endsWithBucketEnd c) = c :: cs →
      ∃ t, (stepBuckets (splitDiv buf) [] []).2 = c ++ t) := by
  have hs := stepBuckets_spec (splitDiv buf) [] []
  refine ⟨?_, ?_, ?_⟩
  · intro c _ hend hmem
    rw [hs] at hmem
    simp only [List.nil_append] at hmem
    have := (List.mem_filter.mp hmem).2
    rw [hend] at this
    exact Bool.false_ne_true this
  · rw [hs]; simp
  · intro c cs hfil
    rw [hs]
    simp only [List.nil_append, hfil, List.flatten_cons]
    exact ⟨cs.flatten, rfl⟩

/-- Witness for C3 at the concrete buffer `c3Buf`: its trailing incomplete
chunk `"partial"` is not decoded and starts the next accumulation
buffer. -/
theorem c3_incomplete_chunk_retained_witness :
    ("partial".data ∉ (stepBuckets (splitDiv c3Buf) [] []).1) ∧
    (∃ t, (stepBuckets (splitDiv c3Buf) [] []).2 = "partial".data ++ t) := by
  have h := c3_incomplete_chunk_retained c3Buf
  refine ⟨h.1 "partial".data (by decide) (by decide), ?_⟩
  exact h.2.2 "partial".data [] (by decide)

/-- C4 (code behaviour at the failing input): when the very first complete
bucket message carries a percentage field that does not parse, the
`finally` clause reads the never-assigned local `progress` and the loop
aborts with `UnboundLocalError` — the second message is never decoded;
whereas the same malformed percentage in a non-first message is tolerated
and every message of the stream is decoded.  This refutes the claim that a
malformed percentage never aborts the stream. -/
theorem c4_malformed_percentage_first_bucket_aborts :
    decodeBuckets { progress := none, drawn := [] } c4StreamFirstMalformed =
      Except.error PyErr.unboundLocalError ∧
    decodeBuckets { progress := none, drawn := [] } c4StreamLaterMalformed =
      Except.ok { progress := some 90, drawn := [1, 2, 3] } := by
  constructor <;> rfl

/-! ### Transform-sampling lemmas (C6) -/

private theorem needs_xform_mb_false (chain : List XObj)
    (h : ∀ o ∈ chain, o.hasAnimData = false ∧ o.numConstraints = 0) :
    needs_xform_mb chain = false := by
  induction chain with
  | nil => rfl
  | cons o ps ih =>
    have ho := h o (List.mem_cons_self o ps)
    have hrest : ∀ o ∈ ps, o.hasAnimData = false ∧ o.numConstraints = 0 := fun o hmem =>
      h o (List.mem_cons_of_mem _ hmem)
    simp [needs_xform_mb, ho.1, ho.2, ih hrest]

private theorem sampleN_needs_mb (inst : CInstance) (off : ℚ × ℚ × ℚ) :
    ∀ n, (inst.sampleN off n).needs_mb = inst.needs_mb := by
  intro n
  induction n with
  | zero => rfl
  | succ n ih =>
    simp only [CInstance.sampleN, CInstance.take_sample]
    split
    · simpa using ih
    · exact ih

private theorem sampleN_len (inst : CInstance) (off : ℚ × ℚ × ℚ)
    (hmb : inst.needs_mb = false) (h0 : inst.time_xforms = []) :
    ∀ n, (inst.sampleN off n).time_xforms.length = min n 1 := by
  intro n
  induction n with
  | zero => simp [CInstance.sampleN, h0]
  | succ n ih =>
    have hmbn : (inst.sampleN off n).needs_mb = false := by
      rw [sampleN_needs_mb inst off n, hmb]
    have hstep : inst.sampleN off (n + 1) = (inst.sampleN off n).take_sample off := rfl
    rw [hstep, CInstance.take_sample]
    by_cases hz : (inst.sampleN off n).time_xforms.length = 0
    · rw [if_pos (by simp [hz])]
      simp only [List.length_append, List.length_cons, List.length_nil, hz]
      omega
    · rw [if_neg (by simp [hmbn, hz])]
      rw [ih] at hz ⊢
      omega

/-- C6: for every object whose `animation_data` is `None`, whose constraint
list is empty and none of whose ancestors has animation data or
constraints, `needs_xform_mb` is false and the `Instance` created for the
object stores exactly one world-transform matrix however many times the
sample pass visits it. -/
theorem c6_unanimated_single_transform (ob : Ob) (nm : List Char)
    (hAnim : ob.animationData = none) (hCons : ob.numConstraints = 0)
    (hAnc : ∀ o ∈ ob.ancestors, o.hasAnimData = false ∧ o.numConstraints = 0) :
    needs_xform_mb (xchain ob) = false ∧
    ∀ (off : ℚ × ℚ × ℚ) (n : Nat), 0 < n →
      ((CInstance.init ob nm).sampleN off n).time_xforms.length = 1 := by
  have hx : needs_xform_mb (xchain ob) = false := by
    apply needs_xform_mb_false
    intro o ho
    rcases List.mem_cons.mp ho with h | h
    · subst h
      exact ⟨by simp [hAnim], hCons⟩
    · exact hAnc o h
  refine ⟨hx, ?_⟩
  intro off n hn
  have hlen := sampleN_len (CInstance.init ob nm) off (by simp [CInstance.init, hx])
    (by simp [CInstance.init]) n
  rw [hlen]
  omega

/-- Witness for C6 at the concrete unanimated object `c6Ob` visited three
times by the sample pass. -/
theorem c6_unanimated_single_transform_witness :
    needs_xform_mb (xchain c6Ob) = false ∧
    ((CInstance.init c6Ob ("L".data)).sampleN (0, 0, 0) 3).time_xforms.length = 1 := by
  have h := c6_unanimated_single_transform c6Ob "L".data rfl rfl (by decide)
  exact ⟨h.1, h.2 (0, 0, 0) 3 (by norm_num)⟩

/-- C2 (code behaviour at the failing input): for the concrete scene of two
visible, unmodified, unanimated objects sharing one six-face mesh
data-block, the collector of `assembly.py` emits one `MeshSurface` block
but only ONE `Instance` block referencing it (`get_mesh` returns `None`
for the second object because the mesh name is already registered, so no
instance is stored), while the older exporter of `psy_export.py` — which
always returns the mesh name — emits one `MeshSurface` block and TWO
`Instance` blocks referencing it, each with exactly one `Transform`
field, as the claim states. -/
theorem c2_shared_mesh_instance_counts :
    countMeshSurface c2NewBlocks c2SharedName = 1 ∧
    instanceTransformCounts c2NewBlocks c2SharedName = [1] ∧
    countMeshSurface c2OldBlocks c2SharedName = 1 ∧
    instanceTransformCounts c2OldBlocks c2SharedName = [1, 1] := by
  have hts : time_samples 2 = 3 := by
    have hlog : Nat.log 2 2 = 1 := Nat.log_eq_of_pow_le_of_lt_pow (by norm_num) (by norm_num)
    simp [time_samples, hlog]
  simp only [c2NewBlocks, c2OldBlocks, hts]
  decide

end Psychoblend
